import Mathlib

/-!
Shallow embedding of `tetris.py` (cqdThing/Python-Tetris): the falling-piece
controller and board state machine.  Pure geometry (shapes, rotation, move
validation) is modelled as Lean functions; the stateful controller (`Tetris`)
is modelled by explicit state passing.  The two sources of nondeterminism in
the source — `random.choice` over shapes and colors in `new_piece`, and the
arrival of key events — are resolved by passing the chosen shape/color and the
key as explicit arguments.  Rendering calls (`canvas`, score label) have no
effect on game state and are omitted; the `root.after` rescheduling at the end
of `update` is modelled by `tick_scheduled`.
-/

namespace Tetris

/-- `CANVAS_WIDTH = 300` (tetris.py line 5). -/
def CANVAS_WIDTH : Nat := 300

/-- `CANVAS_HEIGHT = 600` (line 6). -/
def CANVAS_HEIGHT : Nat := 600

/-- `BLOCK_SIZE = 30` (line 7). -/
def BLOCK_SIZE : Nat := 30

/-- `BOARD_WIDTH = CANVAS_WIDTH // BLOCK_SIZE` (line 8), i.e. 10. -/
def BOARD_WIDTH : Nat := CANVAS_WIDTH / BLOCK_SIZE

/-- `BOARD_HEIGHT = CANVAS_HEIGHT // BLOCK_SIZE` (line 9), i.e. 20. -/
def BOARD_HEIGHT : Nat := CANVAS_HEIGHT / BLOCK_SIZE

/-- `FALL_SPEED = 1` (line 10). -/
def FALL_SPEED : Int := 1

/-- `FAST_DROP_SPEED = 100` (line 11). -/
def FAST_DROP_SPEED : Int := 100

/-- Colors are the tkinter color strings of the source. -/
abbrev Color := String

/-- `SHAPES` (lines 16-24): the fixed seven tetromino shape matrices. -/
def SHAPES : List (List (List Nat)) :=
  [ [[1, 1, 1, 1]],
    [[1, 1], [1, 1]],
    [[0, 1, 0], [1, 1, 1]],
    [[1, 1, 0], [0, 1, 1]],
    [[0, 1, 1], [1, 1, 0]],
    [[1, 1, 1], [1, 0, 0]],
    [[1, 1, 1], [0, 0, 1]] ]

/-- `SHAPE_COLORS` (line 27). -/
def SHAPE_COLORS : List Color :=
  ["cyan", "yellow", "purple", "green", "red", "orange", "blue"]

/-- A board cell is either empty (`None` in the source) or holds the color of
a locked piece. -/
abbrev Cell := Option Color

/-- The board: a list of rows, each row a list of cells (line 49). -/
abbrev Board := List (List Cell)

/-- The piece record (`Piece.__init__`, lines 31-36): shape matrix, color,
grid anchor `(x, y)` and the pixel-space vertical position `pixel_y`.
Python integers are unbounded, so positions are `Int`. -/
structure Piece where
  shape : List (List Nat)
  color : Color
  x : Int
  y : Int
  pixel_y : Int
  deriving DecidableEq, Repr

/-- Width of a shape as used at spawn: `len(shape[0])` (line 34). -/
def shapeWidth (shape : List (List Nat)) : Nat := (shape.headD []).length

/-- `Piece.__init__(shape, color)` (lines 31-36): anchor at the horizontal
center via floor division, top row, zero pixel offset. -/
def Piece.init (shape : List (List Nat)) (color : Color) : Piece :=
  { shape := shape
    color := color
    x := (BOARD_WIDTH : Int) / 2 - (shapeWidth shape : Int) / 2
    y := 0
    pixel_y := 0 }

/-- The length of the shortest row, the length `zip(*rows)` truncates to
(`zip` stops at the shortest input; `zip()` of no rows is empty). -/
def minRowLen : List (List Nat) → Nat
  | [] => 0
  | r :: rs => rs.foldl (fun m row => min m row.length) r.length

/-- Python `list(zip(*rows))`: the transpose truncated to the shortest row. -/
def pyZip (rows : List (List Nat)) : List (List Nat) :=
  (List.range (minRowLen rows)).map fun i => rows.map fun row => row.getD i 0

/-- `Piece.rotate` (lines 38-39): `list(zip(*self.shape[::-1]))`, the
90-degree clockwise rotation of the shape matrix. -/
def rotate (shape : List (List Nat)) : List (List Nat) :=
  pyZip shape.reverse

/-- The whole mutable state of the `Tetris` class that the game logic touches
(lines 49-55): board, current piece, score, running flag, drop speed. -/
structure State where
  board : Board
  current_piece : Piece
  score : Nat
  running : Bool
  drop_speed : Int
  deriving DecidableEq, Repr

/-- The empty board built in `Tetris.__init__` (line 49). -/
def emptyBoard : Board :=
  List.replicate BOARD_HEIGHT (List.replicate BOARD_WIDTH (none : Cell))

/-- `Tetris.new_piece` (lines 64-68) with the `random.choice` results passed
in: builds a fresh piece from the chosen shape and color. -/
def new_piece (shape : List (List Nat)) (color : Color) : Piece :=
  Piece.init shape color

/-- The state set up by `Tetris.__init__` (lines 49-55) before the first
`update()` call, with the randomly chosen first shape and color passed in. -/
def initState (shape : List (List Nat)) (color : Color) : State :=
  { board := emptyBoard
    current_piece := new_piece shape color
    score := 0
    running := true
    drop_speed := FALL_SPEED }

/-- Total lookup of `self.board[y][x]` for nonnegative indices: out-of-range
reads return an empty cell.  `valid_move` only consults it after its bounds
guards, so this extension never matters (see `valid_move_only_reads_in_bounds`). -/
def cellAt (b : Board) (y x : Nat) : Cell :=
  (((b.get? y).getD []).get? x).getD none

/-- The per-cell test of `valid_move` (lines 101-106) for an occupied cell
landing at `(new_x, new_y)`: inside the side/bottom bounds and, when the row
is visible (`new_y >= 0`), not on top of a locked cell. -/
def cellOK (b : Board) (new_x new_y : Int) : Bool :=
  if new_x < 0 || new_x ≥ (BOARD_WIDTH : Int) || new_y ≥ (BOARD_HEIGHT : Int) then false
  else if new_y ≥ 0 && (cellAt b new_y.toNat new_x.toNat).isSome then false
  else true

/-- `Tetris.valid_move(dx, dy)` (lines 96-107): every occupied cell of the
current shape, shifted by `(dx, dy)` from the piece anchor, must pass
`cellOK`.  The double `enumerate` loop with early `return False` is the
conjunction over the enumerated rows and cells. -/
def valid_move (b : Board) (p : Piece) (dx dy : Int) : Bool :=
  p.shape.enum.all fun yrow =>
    yrow.2.enum.all fun xcell =>
      if xcell.2 = 1 then cellOK b (p.x + xcell.1 + dx) (p.y + yrow.1 + dy)
      else true

/-- Write one locked cell: `self.board[y][x] = color` for in-range `y`
(`List.set` is the in-range case of the Python assignment). -/
def setCell (b : Board) (y x : Nat) (c : Color) : Board :=
  b.set y ((b.getD y []).set x (some c))

/-- The write loop of `lock_piece` (lines 111-114): every occupied cell of the
piece is written into the board at the piece's position. -/
def place_piece (b : Board) (p : Piece) : Board :=
  p.shape.enum.foldl
    (fun b yrow =>
      yrow.2.enum.foldl
        (fun b xcell =>
          if xcell.2 = 1 then setCell b (p.y + yrow.1).toNat (p.x + xcell.1).toNat p.color
          else b)
        b)
    b

/-- `Tetris.clear_full_rows` (lines 141-151): keep the rows that still have an
empty cell, count the dropped (full) rows, add `100` per cleared row to the
score, and reinsert that many empty rows at the top. -/
def clear_full_rows (t : State) : State :=
  let new_board := t.board.filter fun row => row.any fun cell => cell.isNone
  let cleared_rows := BOARD_HEIGHT - new_board.length
  { t with
    score := t.score + cleared_rows * 100
    board := List.replicate cleared_rows (List.replicate BOARD_WIDTH (none : Cell)) ++ new_board }

/-- `Tetris.game_over` (lines 153-157): stop the game (the canvas text and the
print are display-only). -/
def game_over (t : State) : State :=
  { t with running := false }

/-- `Tetris.lock_piece` (lines 109-120) with the next piece's random shape and
color passed in: write the piece into the board, clear full rows, spawn the
new piece, then run the game-over check. -/
def lock_piece (t : State) (shape : List (List Nat)) (color : Color) : State :=
  let t1 := { t with board := place_piece t.board t.current_piece }
  let t2 := clear_full_rows t1
  let t3 := { t2 with current_piece := new_piece shape color }
  if !valid_move t3.board t3.current_piece 0 1 && t3.current_piece.y == 0 then
    game_over t3
  else t3

/-- The key events the handler distinguishes (line 124-130); every other
`keysym` falls through with no effect. -/
inductive Key where
  | left
  | right
  | down
  | up
  | other
  deriving DecidableEq, Repr

/-- `Tetris.handle_key` (lines 122-134).  The Up branch mirrors the source's
rotate-then-maybe-revert: the rotated shape is installed, validated with
`valid_move(0, 0)`, and the saved original shape is restored if invalid. -/
def handle_key (t : State) (k : Key) : State :=
  match k with
  | .left =>
      if valid_move t.board t.current_piece (-1) 0 then
        { t with current_piece := { t.current_piece with x := t.current_piece.x - 1 } }
      else t
  | .right =>
      if valid_move t.board t.current_piece 1 0 then
        { t with current_piece := { t.current_piece with x := t.current_piece.x + 1 } }
      else t
  | .down => { t with drop_speed := FAST_DROP_SPEED }
  | .up =>
      let original_shape := t.current_piece.shape
      let rotated := { t.current_piece with shape := rotate t.current_piece.shape }
      if valid_move t.board rotated 0 0 then { t with current_piece := rotated }
      else { t with current_piece := { rotated with shape := original_shape } }
  | .other => t

/-- `Tetris.check_collision` (lines 136-139): lock the piece when it can no
longer move one row down. -/
def check_collision (t : State) (shape : List (List Nat)) (color : Color) : State :=
  if !valid_move t.board t.current_piece 0 1 then lock_piece t shape color else t

/-- The row advance inside `update` (lines 166-167): snap `pixel_y` to the
next cell boundary and increment the grid row. -/
def advance_row (t : State) : State :=
  { t with current_piece :=
      { t.current_piece with
        pixel_y := (t.current_piece.y + 1) * (BLOCK_SIZE : Int)
        y := t.current_piece.y + 1 } }

/-- `Tetris.update` (lines 159-173) with the shape/color for a potential
re-spawn passed in: advance `pixel_y` by the drop speed; on crossing the next
cell boundary snap, advance the row and run the collision check; finally reset
the drop speed (drawing has no state effect). -/
def update (t : State) (shape : List (List Nat)) (color : Color) : State :=
  let p1 := { t.current_piece with pixel_y := t.current_piece.pixel_y + t.drop_speed }
  let t1 := { t with current_piece := p1 }
  let t2 :=
    if p1.pixel_y ≥ (p1.y + 1) * (BLOCK_SIZE : Int) then
      check_collision (advance_row t1) shape color
    else t1
  { t2 with drop_speed := FALL_SPEED }

/-- Lines 175-176: `update` schedules the next tick exactly when `running` is
still true at the end of the call. -/
def tick_scheduled (t : State) : Bool :=
  t.running

/-! ### Concrete states used by counterexamples and witnesses -/

/-- The I shape (first element of `SHAPES`). -/
def shapeI : List (List Nat) := [[1, 1, 1, 1]]

/-- The O shape (second element of `SHAPES`). -/
def shapeO : List (List Nat) := [[1, 1], [1, 1]]

/-- An empty row. -/
def emptyRow : List Cell := List.replicate BOARD_WIDTH (none : Cell)

/-- A board whose only locked cell is at row 1, column 4. -/
def gravityBoard : Board := emptyBoard.set 1 (emptyRow.set 4 (some "red"))

/-- An I piece at the spawn column one pixel above its first row boundary,
over `gravityBoard`: the next tick advances it into the locked cell. -/
def gravityState : State :=
  { board := gravityBoard
    current_piece := { shape := shapeI, color := "cyan", x := 3, y := 0, pixel_y := 29 }
    score := 0
    running := true
    drop_speed := FALL_SPEED }

/-- A board whose only locked cell is at row 0, column 4. -/
def overlapBoard : Board := emptyBoard.set 0 (emptyRow.set 4 (some "red"))

/-- An O piece resting at the bottom of `overlapBoard`, about to lock; the next
spawn at column 4 overlaps the locked cell at row 0 but can still descend. -/
def overlapState : State :=
  { board := overlapBoard
    current_piece := { shape := shapeO, color := "green", x := 4, y := 18, pixel_y := 540 }
    score := 0
    running := true
    drop_speed := FALL_SPEED }

/-- A board whose only locked cell is at row 2, column 4: an O piece spawned at
column 4 cannot move one row down. -/
def blockedBoard : Board := emptyBoard.set 2 (emptyRow.set 4 (some "red"))

/-- An O piece resting at the bottom of `blockedBoard`, about to lock; the next
spawn cannot descend, so the lock triggers game over. -/
def blockedSpawnState : State :=
  { board := blockedBoard
    current_piece := { shape := shapeO, color := "green", x := 4, y := 18, pixel_y := 540 }
    score := 0
    running := true
    drop_speed := FALL_SPEED }

/-- Like `blockedSpawnState` but one tick earlier: the next `update` crosses
the row boundary, locks the piece, and ends with `running = false`. -/
def gameOverTickState : State :=
  { board := blockedBoard
    current_piece := { shape := shapeO, color := "green", x := 4, y := 17, pixel_y := 539 }
    score := 0
    running := true
    drop_speed := FALL_SPEED }

/-- An O piece flush against the left wall of an empty board: a Left key event
is rejected. -/
def leftWallState : State :=
  { board := emptyBoard
    current_piece := { shape := shapeO, color := "yellow", x := 0, y := 0, pixel_y := 0 }
    score := 0
    running := true
    drop_speed := FALL_SPEED }

/-- An empty board whose bottom row is full. -/
def oneFullRowState : State :=
  { board := emptyBoard.set 19 (List.replicate BOARD_WIDTH (some "red"))
    current_piece := new_piece shapeO "yellow"
    score := 0
    running := true
    drop_speed := FALL_SPEED }

/-- A board agreeing with `emptyBoard` on every in-range cell but with an
extra 21st row and an extra 11th column, all locked. -/
def paddedBoard : Board :=
  List.replicate BOARD_HEIGHT (emptyRow ++ [some "red"]) ++
    [List.replicate (BOARD_WIDTH + 1) (some "red")]

/-! ### Helper lemmas -/

/-- `lock_piece` never turns the running flag back on. -/
theorem lock_piece_running_mono (t : State) (s : List (List Nat)) (c : Color) :
    (lock_piece t s c).running = true → t.running = true := by
  simp only [lock_piece]
  split
  · intro h
    simp [game_over] at h
  · intro h
    exact h

/-- `update` never turns the running flag back on. -/
theorem update_running_mono (t : State) (s : List (List Nat)) (c : Color) :
    (update t s c).running = true → t.running = true := by
  simp only [update, check_collision]
  split
  · split
    · intro h
      exact lock_piece_running_mono
        (advance_row { t with current_piece :=
          { t.current_piece with pixel_y := t.current_piece.pixel_y + t.drop_speed } }) s c h
    · intro h
      exact h
  · intro h
    exact h

/-! ### Claim theorems -/

/-- Claim C8: every spawned piece starts with `y = 0`, `pixel_y = 0` and
anchor `x = BOARD_WIDTH / 2 - shapeWidth / 2` (integer division on the width
of the shape's first row); for the O shape on the 10-wide board the anchor
is 4. -/
theorem spawn_init_spec :
    (∀ s c, (new_piece s c).y = 0 ∧ (new_piece s c).pixel_y = 0 ∧
      (new_piece s c).x = ((BOARD_WIDTH / 2 : Nat) : Int) - ((shapeWidth s / 2 : Nat) : Int)) ∧
    (∀ c, (new_piece shapeO c).x = 4) := by
  constructor
  · intro s c
    refine ⟨rfl, rfl, ?_⟩
    show (BOARD_WIDTH : Int) / 2 - (shapeWidth s : Int) / 2 = _
    omega
  · intro c
    rfl

/-- Claim C9: `update` always ends with `drop_speed = FALL_SPEED`, whatever it
was on entry; a Down key sets it to `FAST_DROP_SPEED`, and the very next
`update` resets it; the entry `drop_speed` is the pixel advance of that one
tick (shown here in the non-crossing case). -/
theorem drop_speed_reset_spec :
    (∀ t s c, (update t s c).drop_speed = FALL_SPEED) ∧
    (∀ t, (handle_key t .down).drop_speed = FAST_DROP_SPEED) ∧
    (∀ t s c, (update (handle_key t .down) s c).drop_speed = FALL_SPEED) ∧
    (∀ t s c,
      t.current_piece.pixel_y + t.drop_speed < (t.current_piece.y + 1) * (BLOCK_SIZE : Int) →
      (update t s c).current_piece.pixel_y = t.current_piece.pixel_y + t.drop_speed) := by
  refine ⟨fun t s c => rfl, fun t => rfl, fun t s c => rfl, fun t s c h => ?_⟩
  simp only [update]
  rw [if_neg (not_le.mpr h)]

/-- Witness for C9 at a concrete state: one tick from the initial state
advances `pixel_y` by exactly the entry drop speed. -/
theorem drop_speed_reset_witness :
    (initState shapeO "yellow").current_piece.pixel_y + (initState shapeO "yellow").drop_speed <
        ((initState shapeO "yellow").current_piece.y + 1) * (BLOCK_SIZE : Int) ∧
      (update (initState shapeO "yellow") shapeO "yellow").current_piece.pixel_y =
        (initState shapeO "yellow").current_piece.pixel_y + (initState shapeO "yellow").drop_speed :=
  ⟨by decide, drop_speed_reset_spec.2.2.2 (initState shapeO "yellow") shapeO "yellow" (by decide)⟩

/-- Claim C5: `running` starts true; no controller operation ever sets it back
to true (`handle_key` and `clear_full_rows` leave it unchanged, `game_over`
forces it to false, `lock_piece` and `update` can only turn it off), and
`update` schedules the next tick exactly when `running` is still true, so once
`running` is false no further tick is ever scheduled. -/
theorem running_one_way_spec :
    (∀ s c, (initState s c).running = true) ∧
    (∀ t k, (handle_key t k).running = t.running) ∧
    (∀ t, (clear_full_rows t).running = t.running) ∧
    (∀ t, (game_over t).running = false) ∧
    (∀ t s c, (lock_piece t s c).running = true → t.running = true) ∧
    (∀ t s c, (update t s c).running = true → t.running = true) ∧
    (∀ t s c, tick_scheduled (update t s c) = (update t s c).running) := by
  refine ⟨fun s c => rfl, fun t k => ?_, fun t => rfl, fun t => rfl,
    lock_piece_running_mono, update_running_mono, fun t s c => rfl⟩
  cases k <;> simp only [handle_key] <;> (try split) <;> rfl

/-- Witness for C5 at a concrete state: the first tick from the initial state
keeps `running` true, hence the initial state was running. -/
theorem running_one_way_witness :
    (update (initState shapeO "yellow") shapeO "yellow").running = true ∧
      (initState shapeO "yellow").running = true :=
  ⟨by decide,
    running_one_way_spec.2.2.2.2.2.1 (initState shapeO "yellow") shapeO "yellow" (by decide)⟩

/-- Claim C6: a rejected Left/Right key and a rejected rotation leave the
whole state — piece position, shape, pixel offset, board and score —
unchanged (the rejected rotation restores the exact pre-rotation shape). -/
theorem rejected_input_noop_spec :
    (∀ t, valid_move t.board t.current_piece (-1) 0 = false → handle_key t .left = t) ∧
    (∀ t, valid_move t.board t.current_piece 1 0 = false → handle_key t .right = t) ∧
    (∀ t, valid_move t.board
        { t.current_piece with shape := rotate t.current_piece.shape } 0 0 = false →
      handle_key t .up = t) := by
  refine ⟨fun t h => ?_, fun t h => ?_, fun t h => ?_⟩ <;>
    simp only [handle_key] <;> rw [if_neg (by simp [h])]

/-- Witness for C6: an O piece against the left wall rejects a Left key and
the state is unchanged. -/
theorem rejected_input_noop_witness :
    valid_move leftWallState.board leftWallState.current_piece (-1) 0 = false ∧
      handle_key leftWallState .left = leftWallState :=
  ⟨by decide, rejected_input_noop_spec.1 leftWallState (by decide)⟩

/-- An `if` over an occupied-cell test passes exactly when occupancy implies
the test passes. -/
theorem if_occupied_eq_true (c : Prop) [Decidable c] (x : Bool) :
    ((if c then x else true) = true) ↔ (c → x = true) := by
  split_ifs with h <;> simp [h]

/-- The per-cell check fails exactly on the claim's conditions: column out of
`[0, BOARD_WIDTH)`, row at or below the floor, or a visible row landing on a
locked cell. -/
theorem cellOK_eq_false_iff (b : Board) (new_x new_y : Int) :
    cellOK b new_x new_y = false ↔
      new_x < 0 ∨ new_x ≥ (BOARD_WIDTH : Int) ∨ new_y ≥ (BOARD_HEIGHT : Int) ∨
        (new_y ≥ 0 ∧ cellAt b new_y.toNat new_x.toNat ≠ none) := by
  simp only [cellOK]
  split_ifs with h1 h2 <;>
    simp_all [Bool.or_eq_true, Bool.and_eq_true, decide_eq_true_eq,
      Option.isSome_iff_ne_none]
  tauto

/-- `valid_move` succeeds exactly when every occupied cell passes `cellOK`. -/
theorem valid_move_eq_true_iff (b : Board) (p : Piece) (dx dy : Int) :
    valid_move b p dx dy = true ↔
      ∀ (i : Nat) (hi : i < p.shape.length) (j : Nat) (hj : j < p.shape[i].length),
        p.shape[i][j] = 1 → cellOK b (p.x + j + dx) (p.y + i + dy) = true := by
  simp only [valid_move, List.all_eq_true, List.forall_mem_enum, if_occupied_eq_true]

/-- Claim C1: `valid_move(dx, dy)` returns false iff some occupied cell of the
shape, mapped to `(piece.x + x + dx, piece.y + y + dy)`, has column `< 0` or
`>= BOARD_WIDTH`, or row `>= BOARD_HEIGHT`, or a row `>= 0` whose board cell
is non-empty; cells whose resulting row is `< 0` are otherwise permitted. -/
theorem valid_move_false_iff (b : Board) (p : Piece) (dx dy : Int) :
    valid_move b p dx dy = false ↔
      ∃ (i : Nat) (hi : i < p.shape.length) (j : Nat) (hj : j < p.shape[i].length),
        p.shape[i][j] = 1 ∧
          (p.x + j + dx < 0 ∨ p.x + j + dx ≥ (BOARD_WIDTH : Int) ∨
            p.y + i + dy ≥ (BOARD_HEIGHT : Int) ∨
            (p.y + i + dy ≥ 0 ∧ cellAt b (p.y + i + dy).toNat (p.x + j + dx).toNat ≠ none)) := by
  rw [← Bool.not_eq_true, valid_move_eq_true_iff]
  push_neg
  refine exists_congr fun i => exists_congr fun hi => exists_congr fun j =>
    exists_congr fun hj => and_congr_right fun _ => ?_
  simp only [ne_eq, Bool.not_eq_true, cellOK_eq_false_iff]

/-- The per-cell check only depends on in-range board cells. -/
theorem cellOK_congr (b1 b2 : Board) (new_x new_y : Int)
    (hagree : ∀ y < BOARD_HEIGHT, ∀ x < BOARD_WIDTH, cellAt b1 y x = cellAt b2 y x) :
    cellOK b1 new_x new_y = cellOK b2 new_x new_y := by
  simp only [cellOK]
  by_cases h1 :
      (new_x < 0 || new_x ≥ (BOARD_WIDTH : Int) || new_y ≥ (BOARD_HEIGHT : Int)) = true
  · rw [if_pos h1, if_pos h1]
  · rw [if_neg h1, if_neg h1]
    simp only [Bool.or_eq_true, decide_eq_true_eq, not_or, not_lt, not_le] at h1
    by_cases h2 : (0 : Int) ≤ new_y
    · rw [hagree new_y.toNat (by omega) new_x.toNat (by omega)]
    · have hdec : decide (new_y ≥ 0) = false := by simp [h2]
      rw [hdec]
      simp

/-- Claim C10: `valid_move` never consults the board outside the grid: two
boards that agree on every cell with row `< BOARD_HEIGHT` and column
`< BOARD_WIDTH` make `valid_move` agree for every piece and offset (the
bounds guards precede the occupancy read, and the `new_y >= 0` guard keeps
negative rows away from the lookup). -/
theorem valid_move_only_reads_in_bounds (b1 b2 : Board) (p : Piece) (dx dy : Int)
    (hagree : ∀ y < BOARD_HEIGHT, ∀ x < BOARD_WIDTH, cellAt b1 y x = cellAt b2 y x) :
    valid_move b1 p dx dy = valid_move b2 p dx dy := by
  have hcell : ∀ new_x new_y : Int, cellOK b1 new_x new_y = cellOK b2 new_x new_y :=
    fun new_x new_y => cellOK_congr b1 b2 new_x new_y hagree
  simp only [valid_move, hcell]

/-- Witness for C10: the empty board and a padded board with junk in a 21st
row and an 11th column agree in range, so `valid_move` cannot tell them
apart. -/
theorem valid_move_only_reads_in_bounds_witness :
    (∀ y < BOARD_HEIGHT, ∀ x < BOARD_WIDTH, cellAt emptyBoard y x = cellAt paddedBoard y x) ∧
      valid_move emptyBoard (new_piece shapeO "yellow") 0 0 =
        valid_move paddedBoard (new_piece shapeO "yellow") 0 0 :=
  ⟨by decide,
    valid_move_only_reads_in_bounds emptyBoard paddedBoard (new_piece shapeO "yellow") 0 0
      (by decide)⟩

/-- Translating the anchor by `(dx, dy)` and validating in place is the same
as validating the original piece with offset `(dx, dy)`. -/
theorem valid_move_shift (b : Board) (p' p : Piece) (dx dy : Int)
    (hs : p'.shape = p.shape) (hx : p'.x = p.x + dx) (hy : p'.y = p.y + dy) :
    valid_move b p' 0 0 = valid_move b p dx dy := by
  have harith : ∀ a d e : Int, a + d + e + 0 = a + e + d := by
    intro a d e
    ring
  simp only [valid_move, hs, hx, hy, harith]

/-- Claim C2 (amended): a committed horizontal shift or rotation always
satisfies `valid_move(0, 0)` (or the piece is untouched); the gravity step,
however, validates only relative to the pre-increment row — the row advance
is safe when the piece could move down (`valid_move(0, 1)`) beforehand, and
`update` performs it without that check. -/
theorem committed_moves_valid :
    (∀ t k, (handle_key t k).current_piece = t.current_piece ∨
        valid_move t.board (handle_key t k).current_piece 0 0 = true) ∧
    (∀ t, valid_move t.board t.current_piece 0 1 = true →
        valid_move (advance_row t).board (advance_row t).current_piece 0 0 = true) := by
  constructor
  · intro t k
    cases k with
    | left =>
        simp only [handle_key]
        split
        case isTrue h =>
          refine Or.inr (Eq.trans (valid_move_shift t.board
            { t.current_piece with x := t.current_piece.x - 1 } t.current_piece (-1) 0
            rfl ?_ ?_) h)
          · show t.current_piece.x - 1 = t.current_piece.x + (-1)
            ring
          · show t.current_piece.y = t.current_piece.y + 0
            ring
        case isFalse h => exact Or.inl rfl
    | right =>
        simp only [handle_key]
        split
        case isTrue h =>
          refine Or.inr (Eq.trans (valid_move_shift t.board
            { t.current_piece with x := t.current_piece.x + 1 } t.current_piece 1 0
            rfl rfl ?_) h)
          show t.current_piece.y = t.current_piece.y + 0
          ring
        case isFalse h => exact Or.inl rfl
    | down => exact Or.inl rfl
    | up =>
        simp only [handle_key]
        split
        case isTrue h => exact Or.inr h
        case isFalse h => exact Or.inl rfl
    | other => exact Or.inl rfl
  · intro t h
    refine Eq.trans (valid_move_shift t.board (advance_row t).current_piece
      t.current_piece 0 1 rfl ?_ ?_) h
    · show t.current_piece.x = t.current_piece.x + 0
      ring
    · show t.current_piece.y + 1 = t.current_piece.y + 1
      rfl

/-- Witness for C2 (amended): from the initial O-piece state the piece can
descend, so the row advance lands on a valid position. -/
theorem committed_moves_valid_witness :
    valid_move (initState shapeO "yellow").board (initState shapeO "yellow").current_piece
        0 1 = true ∧
      valid_move (advance_row (initState shapeO "yellow")).board
        (advance_row (initState shapeO "yellow")).current_piece 0 0 = true :=
  ⟨by decide, committed_moves_valid.2 (initState shapeO "yellow") (by decide)⟩

/-- Counterexample to C2 as stated: from `gravityState` (an I piece on a valid
position, one pixel above the row boundary, with a lone locked cell at row 1
column 4) the gravity step of `update` commits `y = 1`, a position overlapping
the locked cell: the committed piece violates `valid_move(0, 0)` and the
invariant of the claim. -/
theorem gravity_step_commits_overlap :
    valid_move gravityState.board gravityState.current_piece 0 0 = true ∧
      (update gravityState shapeO "yellow").board = gravityState.board ∧
      (update gravityState shapeO "yellow").current_piece.shape = shapeI ∧
      (update gravityState shapeO "yellow").current_piece.x = 3 ∧
      (update gravityState shapeO "yellow").current_piece.y = 1 ∧
      cellAt (update gravityState shapeO "yellow").board 1 4 = some "red" ∧
      valid_move (update gravityState shapeO "yellow").board
        (update gravityState shapeO "yellow").current_piece 0 0 = false := by
  decide

/-- A row has an empty cell exactly when it is not full ("full" being the
spec's "contains no empty cell"). -/
theorem any_isNone_eq_not_all_isSome (row : List Cell) :
    (row.any fun cell => cell.isNone) = !(row.all fun cell => cell.isSome) := by
  induction row with
  | nil => rfl
  | cons a l ih => cases a <;> simp [ih]

/-- Claim C3: on a well-formed board with exactly `k` full rows,
`clear_full_rows` drops exactly the full rows, keeps the non-full rows in
order below `k` fresh empty rows, preserves the row and column counts, adds
`100 * k` to the score, and touches nothing else. -/
theorem clear_full_rows_spec (t : State) (k : Nat)
    (hlen : t.board.length = BOARD_HEIGHT)
    (hw : ∀ row ∈ t.board, row.length = BOARD_WIDTH)
    (hk : (t.board.filter fun row => row.all fun cell => cell.isSome).length = k) :
    (clear_full_rows t).board =
        List.replicate k emptyRow ++
          t.board.filter (fun row => !(row.all fun cell => cell.isSome)) ∧
      (clear_full_rows t).board.length = BOARD_HEIGHT ∧
      (∀ row ∈ (clear_full_rows t).board, row.length = BOARD_WIDTH) ∧
      (clear_full_rows t).score = t.score + 100 * k ∧
      (clear_full_rows t).current_piece = t.current_piece ∧
      (clear_full_rows t).running = t.running := by
  have hfilter : (t.board.filter fun row => row.any fun cell => cell.isNone) =
      t.board.filter fun row => !(row.all fun cell => cell.isSome) := by
    apply List.filter_congr
    intro row _
    exact any_isNone_eq_not_all_isSome row
  have hsplit := List.length_eq_length_filter_add
    (l := t.board) (fun row => row.all fun cell => cell.isSome)
  have hkept : (t.board.filter fun row => !(row.all fun cell => cell.isSome)).length =
      BOARD_HEIGHT - k := by
    omega
  have hcleared : BOARD_HEIGHT -
      (t.board.filter fun row => row.any fun cell => cell.isNone).length = k := by
    rw [hfilter, hkept]
    omega
  refine ⟨?_, ?_, ?_, ?_, rfl, rfl⟩
  · show List.replicate _ (List.replicate BOARD_WIDTH (none : Cell)) ++ _ = _
    rw [hcleared, hfilter]
    rfl
  · show (List.replicate _ (List.replicate BOARD_WIDTH (none : Cell)) ++ _).length = _
    rw [hcleared]
    simp only [List.length_append, List.length_replicate, hfilter, hkept]
    omega
  · intro row hrow
    show row.length = BOARD_WIDTH
    rcases List.mem_append.mp hrow with hmem | hmem
    · rw [List.eq_of_mem_replicate hmem]
      simp
    · exact hw row (List.mem_of_mem_filter hmem)
  · show t.score + _ * 100 = t.score + 100 * k
    rw [hcleared]
    ring

/-- Witness for C3 at a concrete board with exactly one full (bottom) row:
the cleared board keeps its 20 rows and the score rises by 100. -/
theorem clear_full_rows_witness :
    oneFullRowState.board.length = BOARD_HEIGHT ∧
      (clear_full_rows oneFullRowState).score = oneFullRowState.score + 100 * 1 ∧
      (clear_full_rows oneFullRowState).board.length = BOARD_HEIGHT :=
  ⟨by decide,
    (clear_full_rows_spec oneFullRowState 1 (by decide) (by decide) (by decide)).2.2.2.1,
    (clear_full_rows_spec oneFullRowState 1 (by decide) (by decide) (by decide)).2.1⟩

/-- Folding `min` over rows of one common length never moves off that
length. -/
theorem foldl_min_const (rs : List (List Nat)) (c : Nat)
    (h : ∀ row ∈ rs, row.length = c) :
    rs.foldl (fun m row => min m row.length) c = c := by
  induction rs with
  | nil => rfl
  | cons r rs ih =>
      have hr : r.length = c := h r (List.mem_cons_self r rs)
      simp only [List.foldl_cons, hr, min_self]
      exact ih fun row hrow => h row (List.mem_cons_of_mem r hrow)

/-- On a nonempty rectangular matrix the `zip` truncation length is the
common row length. -/
theorem minRowLen_uniform (l : List (List Nat)) (c : Nat)
    (hne : l ≠ []) (h : ∀ row ∈ l, row.length = c) :
    minRowLen l = c := by
  cases l with
  | nil => exact absurd rfl hne
  | cons r rs =>
      have hr : r.length = c := h r (List.mem_cons_self r rs)
      simp only [minRowLen, hr]
      exact foldl_min_const rs c fun row hrow => h row (List.mem_cons_of_mem r hrow)

/-- Claim C7: `rotate` is the pure 90-degree clockwise rotation: on any
nonempty rectangular `r × c` matrix the result is `c × r` with entry
`(i, j)` equal to entry `(r - 1 - j, i)` of the input, and on each of the
seven fixed shapes four rotations give back the original matrix. -/
theorem rotate_spec :
    (∀ (s : List (List Nat)) (r c : Nat), s.length = r → 0 < r →
        (∀ row ∈ s, row.length = c) →
        (rotate s).length = c ∧
          (∀ row ∈ rotate s, row.length = r) ∧
          ∀ i j, i < c → j < r →
            ((rotate s).getD i []).getD j 0 = (s.getD (r - 1 - j) []).getD i 0) ∧
    (∀ s ∈ SHAPES, rotate (rotate (rotate (rotate s))) = s) := by
  constructor
  · intro s r c hr hpos hrows
    have hne : s.reverse ≠ [] := by
      simp only [ne_eq, List.reverse_eq_nil_iff]
      intro hnil
      rw [hnil] at hr
      simp at hr
      omega
    have hrev : ∀ row ∈ s.reverse, row.length = c := fun row hrow =>
      hrows row (List.mem_reverse.mp hrow)
    have hmin : minRowLen s.reverse = c := minRowLen_uniform _ c hne hrev
    have hrot : rotate s =
        (List.range c).map fun i => s.reverse.map fun row => row.getD i 0 := by
      rw [rotate, pyZip, hmin]
    refine ⟨?_, ?_, ?_⟩
    · rw [hrot]
      simp
    · intro row hrow
      rw [hrot] at hrow
      simp only [List.mem_map, List.mem_range] at hrow
      obtain ⟨i, hi, hrow⟩ := hrow
      rw [← hrow]
      simp [hr]
    · intro i j hi hj
      have hjs : j < s.length := by omega
      have hidx : s.length - 1 - j = r - 1 - j := by omega
      have hj2 : r - 1 - j < s.length := by omega
      have h1 : ((List.range c).map fun i =>
            s.reverse.map fun row => row.getD i 0).getD i [] =
          s.reverse.map fun row => row.getD i 0 := by
        rw [List.getD_eq_getElem?_getD, List.getElem?_map, List.getElem?_range hi]
        simp
      rw [hrot, h1, List.getD_eq_getElem?_getD, List.getElem?_map,
        List.getElem?_reverse hjs, hidx, List.getElem?_eq_getElem hj2]
      rw [List.getD_eq_getElem?_getD s (r - 1 - j) [], List.getElem?_eq_getElem hj2]
      simp
  · decide

/-- Witness for C7 at the T shape (2 × 3): entry (0, 1) of the rotation is
entry (0, 0) of the original. -/
theorem rotate_spec_witness :
    ((rotate [[0, 1, 0], [1, 1, 1]]).getD 0 []).getD 1 0 =
      (([[0, 1, 0], [1, 1, 1]] : List (List Nat)).getD (2 - 1 - 1) []).getD 0 0 :=
  (rotate_spec.1 [[0, 1, 0], [1, 1, 1]] 2 3 rfl (by decide) (by decide)).2.2 0 1
    (by decide) (by decide)

/-- Claim C4 (amended): right after `lock_piece` locks, clears and spawns
(from a still-running state), the game is over (`running = false`) exactly
when the fresh spawn cannot move one row down while its spawn row is 0 — and
spawn overlap with locked cells at row 0 does not by itself trigger game
over; when an `update` call ends with `running = false` no next tick is
scheduled. -/
theorem lock_piece_game_over_iff :
    (∀ t s c, t.running = true →
        ((lock_piece t s c).running = false ↔
          valid_move (lock_piece t s c).board (new_piece s c) 0 1 = false ∧
            (new_piece s c).y = 0)) ∧
    (∀ t s c, (update t s c).running = false → tick_scheduled (update t s c) = false) := by
  constructor
  · intro t s c hrun
    have hboard : (lock_piece t s c).board =
        (clear_full_rows { t with board := place_piece t.board t.current_piece }).board := by
      simp only [lock_piece]
      split <;> rfl
    rw [hboard]
    simp only [lock_piece]
    cases hvm : valid_move
        (clear_full_rows { t with board := place_piece t.board t.current_piece }).board
        (new_piece s c) 0 1 <;>
      simp [hvm, game_over, new_piece, Piece.init, hrun, clear_full_rows]
  · intro t s c h
    simpa [tick_scheduled] using h

/-- Counterexample to C4's overlap clause: locking `overlapState`'s piece
leaves a locked cell at row 0 column 4; the fresh O spawn sits on columns
4-5 of rows 0-1, so its spawn cells overlap that locked cell
(`valid_move(0, 0)` is false), yet it can still move one row down, so the
game-over check passes and `running` stays true. -/
theorem spawn_overlap_without_game_over :
    overlapState.running = true ∧
      cellAt (lock_piece overlapState shapeO "yellow").board 0 4 = some "red" ∧
      (new_piece shapeO "yellow").x = 4 ∧
      (new_piece shapeO "yellow").y = 0 ∧
      valid_move (lock_piece overlapState shapeO "yellow").board
          (new_piece shapeO "yellow") 0 0 = false ∧
      valid_move (lock_piece overlapState shapeO "yellow").board
          (new_piece shapeO "yellow") 0 1 = true ∧
      (lock_piece overlapState shapeO "yellow").running = true := by
  decide

/-- Witness for C4 (amended): locking `blockedSpawnState`'s piece spawns an O
that cannot descend (locked cell at row 2 column 4), so the lock ends the
game, and the tick that performs such a lock schedules no successor. -/
theorem lock_piece_game_over_iff_witness :
    (lock_piece blockedSpawnState shapeO "yellow").running = false ∧
      tick_scheduled (update gameOverTickState shapeO "yellow") = false :=
  ⟨(lock_piece_game_over_iff.1 blockedSpawnState shapeO "yellow" (by decide)).mpr
      (by decide),
    lock_piece_game_over_iff.2 gameOverTickState shapeO "yellow" (by decide)⟩

end Tetris
